import Mathlib

/-!
# Temple Points Tracker — verification of the specification against the source

Shallow embedding of the Go web application in `handlers.go`, `models.go`,
`database.go` and `main.go`.  The SQLite database is modelled as in-memory
lists of rows; each HTTP handler becomes a pure function from a server state
(database rows plus the sequence of broadcast events emitted so far) to a new
server state and an HTTP-level outcome.  Machine integers are modelled as
`Int` (Go `int` on a 64-bit platform; no arithmetic here approaches the
overflow boundary), SQL `SUM` as a list sum, and `CURRENT_TIMESTAMP` as an
explicit `now` parameter.
-/

namespace TemplePoints

/-- Submission status: the `status` column of `point_submissions`
(`CHECK(status IN ('pending','approved','rejected'))`). -/
inductive Status where
  | pending
  | approved
  | rejected
deriving DecidableEq, Repr

/-- A row of `point_submissions` (see `createTables` in database.go and
`PointSubmission` in models.go).  `approved_at` is a timestamp modelled as
`Int`. -/
structure Submission where
  id : Int
  ward_id : Int
  submitter_name : String
  points : Int
  note : String
  status : Status
  approved_by : Option Int
  approved_at : Option Int
deriving DecidableEq, Repr

/-- A row of `wards`: cached verified total (`points`) and cached pending
total (`pending_points`). -/
structure Ward where
  id : Int
  name : String
  points : Int
  pending_points : Int
deriving DecidableEq, Repr

/-- A row of `users`: role is `"admin"` or `"ward_approver"`; `ward_id` is a
nullable column (`sql.NullInt64` in `canApproveForWard`). -/
structure UserRow where
  id : Int
  email : String
  role : String
  ward_id : Option Int
deriving DecidableEq, Repr

/-- A row of `achievements`; the table has `UNIQUE(ward_id, type)`. -/
structure AchievementRow where
  ward_id : Int
  aType : String
  title : String
  icon : String
deriving DecidableEq, Repr

/-- A row of `activity_logs` (written by `logActivity`). -/
structure ActivityLog where
  ward_id : Int
  user_id : Option Int
  action : String
  details : String
  points : Int
deriving DecidableEq, Repr

/-- A websocket broadcast event, as produced by `broadcastUpdate`: either a
`leaderboard-update` (payload recomputed from the database, not tracked here)
or an `achievement` event carrying the ward name and achievement title (see
`broadcastAchievement`). -/
inductive Event where
  | leaderboardUpdate
  | achievement (ward : String) (title : String)
deriving DecidableEq, Repr

/-- The SQLite database contents relevant to the handlers, plus the
AUTOINCREMENT counter for `point_submissions.id`. -/
structure DB where
  wards : List Ward
  users : List UserRow
  submissions : List Submission
  achievements : List AchievementRow
  activity_logs : List ActivityLog
  next_submission_id : Int
deriving DecidableEq, Repr

/-- Server state: database plus the ordered sequence of events broadcast via
the hub so far. -/
structure ServerState where
  db : DB
  events : List Event
deriving DecidableEq, Repr

/-- The part of an HTTP request the session helpers look at: the cookie list
(name/value pairs, in order). -/
structure Request where
  cookies : List (String × String)
deriving DecidableEq, Repr

/-- The HTTP-level outcome a handler writes: 200 success, or one of the error
statuses used in handlers.go (400, 401, 403, 404, 500). -/
inductive HandlerResult where
  | ok
  | badRequest
  | unauthorized
  | forbidden
  | notFound
  | internalError
deriving DecidableEq, Repr

/-- Model of `r.Cookie(name)`: first cookie with the given name, if any. -/
def getCookie (r : Request) (name : String) : Option String :=
  (r.cookies.find? (fun c => c.1 == name)).map (fun c => c.2)

/-- Numeric value of a digit string (most significant first). -/
def digitsVal (cs : List Char) : Nat :=
  cs.foldl (fun acc c => acc * 10 + (c.toNat - 48)) 0

/-- Go `strconv.Atoi`: optional single leading sign, then one or more ASCII
digits, nothing else; errors (here `none`) on the empty string, a stray
character, or a value outside the 64-bit `int` range. -/
def goAtoi (s : String) : Option Int :=
  let cs := s.toList
  let signed : Int × List Char :=
    match cs with
    | '+' :: rest => (1, rest)
    | '-' :: rest => (-1, rest)
    | _ => (1, cs)
  if signed.2 = [] ∨ ¬ signed.2.all (fun c => c.isDigit) then none
  else
    let n : Int := signed.1 * (digitsVal signed.2 : Int)
    if -(2 ^ 63) ≤ n ∧ n < 2 ^ 63 then some n else none

/-- Model of `getUserIDFromSession`: read the `session` cookie and `Atoi` it; any
failure yields user id 0 (treated as unauthenticated).  No token
verification and no database access. -/
def getUserIDFromSession (r : Request) : Int :=
  match getCookie r "session" with
  | none => 0
  | some v =>
    match goAtoi v with
    | none => 0
    | some n => n

/-- The filter `WHERE id = ? AND status = 'pending'` on `point_submissions`. -/
def pendingWithId (sid : Int) (x : Submission) : Bool :=
  decide (x.id = sid ∧ x.status = .pending)

/-- The filter `WHERE id = ?` on `point_submissions`. -/
def subWithId (sid : Int) (x : Submission) : Bool :=
  decide (x.id = sid)

/-- The filter `WHERE id = ?` on `wards`. -/
def wardWithId (wid : Int) (w : Ward) : Bool :=
  decide (w.id = wid)

/-- Model of `canApproveForWard`: look up the user row; admins may approve for any
ward, a `ward_approver` only for the ward equal to their non-null `ward_id`;
a missing user row (or any other role) yields `false`. -/
def canApproveForWard (db : DB) (userID wardID : Int) : Bool :=
  match db.users.find? (fun u => u.id == userID) with
  | none => false
  | some u =>
    if u.role = "admin" then true
    else if u.role = "ward_approver" ∧ u.ward_id = some wardID then true
    else false

/-- The aggregate `SELECT COALESCE(SUM(points), 0) FROM point_submissions WHERE ward_id = ?
AND status = ?`. -/
def sumStatusPoints (subs : List Submission) (wardID : Int) (st : Status) : Int :=
  ((subs.filter (fun x => decide (x.ward_id = wardID ∧ x.status = st))).map
    (fun x => x.points)).sum

/-- Whether a ward row with the given id exists (the `FOREIGN KEY (ward_id)
REFERENCES wards(id)` constraint, enforced because the database is opened
with `_foreign_keys=on`). -/
def wardExists (db : DB) (wardID : Int) : Bool :=
  db.wards.any (fun w => w.id == wardID)

/-- Model of `handleSubmitPoints`: validate (`WardID == 0 || SubmitterName == "" ||
Points <= 0` → 400); insert the pending submission — the insert fails with a
store error (500) when `ward_id` references no ward, by the foreign-key
constraint; then recompute the ward's `pending_points` as the aggregate sum
of its pending submissions, append an activity log entry, and broadcast a
leaderboard update. -/
def handleSubmitPoints (s : ServerState) (ward_id : Int) (submitter_name : String)
    (points : Int) (note : String) : ServerState × HandlerResult :=
  if ward_id = 0 ∨ submitter_name = "" ∨ points ≤ 0 then
    (s, .badRequest)
  else if ¬ wardExists s.db ward_id then
    (s, .internalError)
  else
    let newSub : Submission :=
      { id := s.db.next_submission_id
        ward_id := ward_id
        submitter_name := submitter_name
        points := points
        note := note
        status := .pending
        approved_by := none
        approved_at := none }
    let subs := s.db.submissions ++ [newSub]
    let newPending := sumStatusPoints subs ward_id .pending
    let wards := s.db.wards.map (fun w =>
      if w.id = ward_id then { w with pending_points := newPending } else w)
    let newLog : ActivityLog :=
      { ward_id := ward_id
        user_id := none
        action := "points_submitted"
        details := submitter_name ++ " submitted " ++ toString points ++ " points"
        points := points }
    let db' : DB :=
      { s.db with
        wards := wards
        submissions := subs
        activity_logs := s.db.activity_logs ++ [newLog]
        next_submission_id := s.db.next_submission_id + 1 }
    ({ db := db', events := s.events ++ [.leaderboardUpdate] }, .ok)

/-- The fixed achievement threshold table in `checkAndAwardAchievements`:
(condition threshold, type, title, icon). -/
def achievementTable : List (Int × String × String × String) :=
  [(100, "first_100", "First 100 Points!", "💯"),
   (500, "first_500", "First to 500!", "⚡"),
   (1000, "first_1000", "Thousand Club!", "🎯"),
   (1300, "goal_reached", "Goal Achieved!", "🏆")]

/-- One iteration of the loop in `checkAndAwardAchievements`: if the ward's
point total meets the threshold, `INSERT OR IGNORE` the achievement row (a
no-op when a row for this (ward, type) already exists, by
`UNIQUE(ward_id, type)`); the insert returns no error either way, so the
`if err == nil` guard always passes and `broadcastAchievement` fires whenever
the threshold condition holds. -/
def achievementStep (wardID : Int) (points : Int) (st : ServerState)
    (entry : Int × String × String × String) : ServerState :=
  if points ≥ entry.1 then
    let already := st.db.achievements.any
      (fun a => a.ward_id == wardID && a.aType == entry.2.1)
    let newRow : AchievementRow :=
      { ward_id := wardID
        aType := entry.2.1
        title := entry.2.2.1
        icon := entry.2.2.2 }
    let newAch :=
      if already then st.db.achievements
      else st.db.achievements ++ [newRow]
    let wardName :=
      ((st.db.wards.find? (wardWithId wardID)).map (fun w => w.name)).getD ""
    { st with
      db := { st.db with achievements := newAch }
      events := st.events ++ [.achievement wardName entry.2.2.1] }
  else st

/-- Model of `checkAndAwardAchievements`: read the ward's current verified points
(0 when the ward row is missing, since the scan error is ignored) and run the
threshold table. -/
def checkAndAwardAchievements (s : ServerState) (wardID : Int) : ServerState :=
  let points :=
    ((s.db.wards.find? (wardWithId wardID)).map (fun w => w.points)).getD 0
  achievementTable.foldl (achievementStep wardID points) s

/-- Model of `handleApprovePoints`: 401 when the session resolves to user 0; 404 when
no pending submission has the id; 403 when `canApproveForWard` fails; else
mark the submission approved (recording approver and timestamp), add the
points to the ward's verified total and subtract them from its pending total,
run the achievement check, log activity, and broadcast. -/
def handleApprovePoints (s : ServerState) (r : Request) (submissionID : Int)
    (now : Int) : ServerState × HandlerResult :=
  let userID := getUserIDFromSession r
  if userID = 0 then (s, .unauthorized)
  else
    match s.db.submissions.find? (pendingWithId submissionID) with
    | none => (s, .notFound)
    | some sub =>
      if ¬ canApproveForWard s.db userID sub.ward_id then (s, .forbidden)
      else
        let subs := s.db.submissions.map (fun x =>
          if x.id = submissionID then
            { x with
              status := .approved
              approved_by := some userID
              approved_at := some now }
          else x)
        let wards := s.db.wards.map (fun w =>
          if w.id = sub.ward_id then
            { w with
              points := w.points + sub.points
              pending_points := w.pending_points - sub.points }
          else w)
        let s1 : ServerState :=
          { db := { s.db with submissions := subs, wards := wards }
            events := s.events }
        let s2 := checkAndAwardAchievements s1 sub.ward_id
        let newLog : ActivityLog :=
          { ward_id := sub.ward_id
            user_id := some userID
            action := "points_approved"
            details := "Approved " ++ toString sub.points ++ " points from " ++
              sub.submitter_name
            points := sub.points }
        let s3 : ServerState :=
          { s2 with
            db := { s2.db with activity_logs := s2.db.activity_logs ++ [newLog] } }
        ({ s3 with events := s3.events ++ [.leaderboardUpdate] }, .ok)

/-- Model of `handleRejectPoints`: same guards as approve; on success mark the
submission rejected (recording approver and timestamp), subtract the points
from the ward's pending total only, and broadcast a leaderboard update — no
achievement check and no activity log entry. -/
def handleRejectPoints (s : ServerState) (r : Request) (submissionID : Int)
    (now : Int) : ServerState × HandlerResult :=
  let userID := getUserIDFromSession r
  if userID = 0 then (s, .unauthorized)
  else
    match s.db.submissions.find? (pendingWithId submissionID) with
    | none => (s, .notFound)
    | some sub =>
      if ¬ canApproveForWard s.db userID sub.ward_id then (s, .forbidden)
      else
        let subs := s.db.submissions.map (fun x =>
          if x.id = submissionID then
            { x with
              status := .rejected
              approved_by := some userID
              approved_at := some now }
          else x)
        let wards := s.db.wards.map (fun w =>
          if w.id = sub.ward_id then
            { w with pending_points := w.pending_points - sub.points }
          else w)
        ({ db := { s.db with submissions := subs, wards := wards }
           events := s.events ++ [.leaderboardUpdate] }, .ok)

/-! ## Broadcast hub (main.go)

A registered websocket client, as in `Client`: its buffered outbound channel
is modelled as the queue of not-yet-consumed messages plus the channel
capacity (256 in `handleWebSocket`).  The hub's client set is modelled as a
list. -/

/-- A registered connection: identity, queued outbound messages, and the
buffered-channel capacity. -/
structure Client where
  id : Int
  send : List String
  capacity : Nat
deriving DecidableEq, Repr

/-- The hub's set of live registered clients (`Hub.clients`). -/
structure Hub where
  clients : List Client
deriving DecidableEq, Repr

/-- The `message := <-h.broadcast` arm of `Hub.run`: for each registered
client, a non-blocking send — enqueue when the buffer has room, otherwise
close the channel and delete the client from the live set. -/
def hubBroadcast (h : Hub) (message : String) : Hub :=
  { clients := (h.clients.filter (fun c => c.send.length < c.capacity)).map
      (fun c => { c with send := c.send ++ [message] }) }

/-! ## Leaderboard (getLeaderboardEntries) -/

/-- Rounding half away from zero, the rounding mode of SQLite's `ROUND`
(idealizing the `FLOAT` cast by exact rationals). -/
def roundHalfAwayFromZero (q : ℚ) : ℤ :=
  if 0 ≤ q.num then (q + 1 / 2).floor else -((-q + 1 / 2).floor)

/-- SQLite `ROUND(x, 1)`: round to one decimal place. -/
def sqlRound1 (q : ℚ) : ℚ :=
  (roundHalfAwayFromZero (q * 10) : ℚ) / 10

/-- A computed leaderboard row (`LeaderboardEntry` in models.go).  The
`streak` and `last_activity` fields are wall-clock-dependent
(`datetime('now', '-7 days')`) and are outside this development's scope. -/
structure LeaderboardEntry where
  rank : Nat
  ward_id : Int
  ward_name : String
  points : Int
  pending_points : Int
  total_points : Int
  progress : ℚ
  achievements : List String
deriving DecidableEq, Repr

/-- Model of `getWardAchievements`: `SELECT icon || ' ' || title FROM achievements
WHERE ward_id = ?`. -/
def getWardAchievements (db : DB) (wardID : Int) : List String :=
  (db.achievements.filter (fun a => a.ward_id == wardID)).map
    (fun a => a.icon ++ " " ++ a.title)

/-- Insert a ward into a list sorted by `le` (helper for the `ORDER BY`
model). -/
def insertSorted (le : Ward → Ward → Bool) (w : Ward) : List Ward → List Ward
  | [] => [w]
  | a :: t => if le w a then w :: a :: t else a :: insertSorted le w t

/-- Stable insertion sort by `le` (the model of SQLite's `ORDER BY`). -/
def sortWardsBy (le : Ward → Ward → Bool) : List Ward → List Ward
  | [] => []
  | a :: t => insertSorted le a (sortWardsBy le t)

/-- The `ORDER BY` clause of `getLeaderboardEntries`, one case per `sortBy`
value with `verified-desc` as the default. -/
def sortWards (wards : List Ward) (sortBy : String) : List Ward :=
  match sortBy with
  | "verified-asc" => sortWardsBy (fun a b => decide (a.points ≤ b.points)) wards
  | "total-desc" => sortWardsBy (fun a b =>
      decide (b.points + b.pending_points ≤ a.points + a.pending_points)) wards
  | "total-asc" => sortWardsBy (fun a b =>
      decide (a.points + a.pending_points ≤ b.points + b.pending_points)) wards
  | "ward-asc" => sortWardsBy (fun a b => decide (a.name ≤ b.name)) wards
  | "ward-desc" => sortWardsBy (fun a b => decide (b.name ≤ a.name)) wards
  | _ => sortWardsBy (fun a b => decide (b.points ≤ a.points)) wards

/-- Model of `getLeaderboardEntries`: one row per ward in sort order; `total_points =
points + pending_points`, `progress = ROUND(CAST(points AS FLOAT) / 1300 *
100, 1)`, rank assigned 1, 2, … by output position. -/
def getLeaderboardEntries (db : DB) (sortBy : String) : List LeaderboardEntry :=
  (sortWards db.wards sortBy).enum.map (fun p =>
    { rank := p.1 + 1
      ward_id := p.2.id
      ward_name := p.2.name
      points := p.2.points
      pending_points := p.2.pending_points
      total_points := p.2.points + p.2.pending_points
      progress := sqlRound1 ((p.2.points : ℚ) / 1300 * 100)
      achievements := getWardAchievements db p.2.id })

/-! ## Specification-side definitions -/

/-- The spec's ward-consistency invariant: every ward's cached verified total
equals the sum of its approved submissions' points and its cached pending
total equals the sum of its pending submissions' points. -/
def wardInvariant (db : DB) : Prop :=
  ∀ w ∈ db.wards,
    w.points = sumStatusPoints db.submissions w.id .approved ∧
    w.pending_points = sumStatusPoints db.submissions w.id .pending

/-- The spec's progress formula, written from its words: verified points
divided by the competition goal, times 100, rounded to one decimal place. -/
def progressSpec (verified : Int) (goal : ℚ) : ℚ :=
  sqlRound1 ((verified : ℚ) / goal * 100)

/-- Submission ids are unique (`id INTEGER PRIMARY KEY`). -/
def subIdsNodup (db : DB) : Prop :=
  (db.submissions.map (fun x => x.id)).Nodup

instance (db : DB) : Decidable (wardInvariant db) := by
  unfold wardInvariant; infer_instance

instance (db : DB) : Decidable (subIdsNodup db) := by
  unfold subIdsNodup; infer_instance

/-! ## Concrete states (scaled-down versions of the seed data in
`seedData`), used to evaluate the theorems on closed inputs -/

/-- A small consistent database: one approved and one pending submission for
ward 1, one pending submission for ward 2, an admin and a ward-1 approver. -/
def demoDB : DB :=
  { wards := [⟨1, "Fountain Green 1st Ward", 100, 50⟩,
              ⟨2, "Moroni 1st Ward", 0, 55⟩]
    users := [⟨1, "admin@templepoints.org", "admin", none⟩,
              ⟨2, "approver@templepoints.org", "ward_approver", some 1⟩]
    submissions := [⟨1, 1, "Demo User", 100, "", .approved, some 1, some 0⟩,
                    ⟨2, 1, "Demo User", 50, "", .pending, none, none⟩,
                    ⟨3, 2, "Demo User", 55, "", .pending, none, none⟩]
    achievements := [⟨1, "first_100", "First 100 Points!", "💯"⟩]
    activity_logs := []
    next_submission_id := 4 }

def demoState : ServerState := { db := demoDB, events := [] }

/-- Request carrying the admin's session cookie. -/
def adminReq : Request := ⟨[("session", "1")]⟩

/-- Request carrying the ward-1 approver's session cookie. -/
def approverReq : Request := ⟨[("session", "2")]⟩

/-- Database holding only ward 1, for exercising a dangling `ward_id`. -/
def oneWardDB : DB :=
  { wards := [⟨1, "Fountain Green 1st Ward", 0, 0⟩]
    users := []
    submissions := []
    achievements := []
    activity_logs := []
    next_submission_id := 1 }

def oneWardState : ServerState := { db := oneWardDB, events := [] }

/-- Ward 1 already holds 100 verified points and its `first_100` achievement
row already exists; used to exercise the achievement evaluator. -/
def achState : ServerState :=
  { db := { oneWardDB with
            wards := [⟨1, "Fountain Green 1st Ward", 100, 0⟩]
            achievements := [⟨1, "first_100", "First 100 Points!", "💯"⟩] }
    events := [] }

/-- A single ward at 650 verified points, half of the 1300-point goal. -/
def ward650DB : DB :=
  { oneWardDB with wards := [⟨1, "Sanpitch Ward", 650, 0⟩] }

/-- A hub with one client that has queue room and one whose queue is full. -/
def demoHub : Hub := ⟨[⟨1, ["a"], 2⟩, ⟨2, ["a", "b"], 2⟩]⟩

/-! ## Helper lemmas -/

/-- The contribution of a single submission row to
`sumStatusPoints _ wardID st`. -/
def contrib (wardID : Int) (st : Status) (x : Submission) : Int :=
  if x.ward_id = wardID ∧ x.status = st then x.points else 0

theorem sumStatusPoints_nil (wid : Int) (st : Status) :
    sumStatusPoints [] wid st = 0 := rfl

theorem sumStatusPoints_cons (x : Submission) (subs : List Submission)
    (wid : Int) (st : Status) :
    sumStatusPoints (x :: subs) wid st
      = contrib wid st x + sumStatusPoints subs wid st := by
  by_cases hc : x.ward_id = wid ∧ x.status = st
  · simp [sumStatusPoints, contrib, List.filter_cons, hc]
  · simp [sumStatusPoints, contrib, List.filter_cons, hc]

theorem sumStatusPoints_append (l₁ l₂ : List Submission) (wid : Int) (st : Status) :
    sumStatusPoints (l₁ ++ l₂) wid st
      = sumStatusPoints l₁ wid st + sumStatusPoints l₂ wid st := by
  induction l₁ with
  | nil => simp [sumStatusPoints_nil]
  | cons h t ih =>
    rw [List.cons_append, sumStatusPoints_cons, sumStatusPoints_cons, ih]
    ring

/-- Mapping an id-conditional update over rows none of which carry the id is
the identity. -/
theorem map_update_of_no_id (t : List Submission) (sid : Int)
    (g : Submission → Submission) (h : ∀ x ∈ t, x.id ≠ sid) :
    t.map (fun x => if x.id = sid then g x else x) = t := by
  induction t with
  | nil => rfl
  | cons a l ih =>
    rw [List.map_cons, if_neg (h a (List.mem_cons_self a l)),
      ih (fun x hx => h x (List.mem_cons_of_mem a hx))]

/-- Effect of the `UPDATE … WHERE id = ?` row rewrite on a status-filtered
point sum, when ids are unique. -/
theorem sumStatusPoints_map_update (subs : List Submission) (sid : Int)
    (g : Submission → Submission) (sub : Submission)
    (hnd : (subs.map (fun x => x.id)).Nodup) (hmem : sub ∈ subs)
    (hid : sub.id = sid) (wid : Int) (st : Status) :
    sumStatusPoints (subs.map (fun x => if x.id = sid then g x else x)) wid st
      = sumStatusPoints subs wid st - contrib wid st sub + contrib wid st (g sub) := by
  induction subs with
  | nil => cases hmem
  | cons a t ih =>
    rw [List.map_cons, List.nodup_cons] at hnd
    rcases List.mem_cons.mp hmem with rfl | hmt
    · rw [List.map_cons, if_pos hid]
      have ht : ∀ x ∈ t, x.id ≠ sid := by
        intro x hx hxid
        exact hnd.1 (hid ▸ hxid ▸ List.mem_map_of_mem (fun y => y.id) hx)
      rw [map_update_of_no_id t sid g ht, sumStatusPoints_cons, sumStatusPoints_cons]
      ring
    · have ha : a.id ≠ sid := by
        intro haid
        exact hnd.1 (haid ▸ hid ▸ List.mem_map_of_mem (fun y => y.id) hmt)
      rw [List.map_cons, if_neg ha, sumStatusPoints_cons, sumStatusPoints_cons,
        ih hnd.2 hmt]
      ring

@[simp] theorem subWithId_eq (sid : Int) (x : Submission) :
    subWithId sid x = decide (x.id = sid) := rfl

@[simp] theorem wardWithId_eq (wid : Int) (w : Ward) :
    wardWithId wid w = decide (w.id = wid) := rfl

@[simp] theorem pendingWithId_eq (sid : Int) (x : Submission) :
    pendingWithId sid x = decide (x.id = sid ∧ x.status = .pending) := rfl

/-- The row found by the pending-filtered lookup is also the row found by the
plain id lookup, when ids are unique. -/
theorem find_pending_weaken (l : List Submission) (sid : Int) (sub : Submission)
    (hnd : (l.map (fun x => x.id)).Nodup)
    (hfind : l.find? (pendingWithId sid) = some sub) :
    l.find? (subWithId sid) = some sub := by
  induction l with
  | nil => simp at hfind
  | cons b t ih =>
    rw [List.map_cons, List.nodup_cons] at hnd
    by_cases hb : b.id = sid
    · rw [List.find?_cons_of_pos _ (by simp [hb])]
      by_cases hp : b.status = Status.pending
      · rw [List.find?_cons_of_pos _ (by simp [hb, hp])] at hfind
        exact hfind
      · rw [List.find?_cons_of_neg _ (by simp [hp])] at hfind
        have hsub := List.find?_some hfind
        have hmem := List.mem_of_find?_eq_some hfind
        simp only [pendingWithId_eq, decide_eq_true_eq] at hsub
        exact absurd (hb ▸ hsub.1 ▸ List.mem_map_of_mem (fun y => y.id) hmem)
          hnd.1
    · rw [List.find?_cons_of_neg _ (by simp [hb])]
      rw [List.find?_cons_of_neg _ (by simp [hb])] at hfind
      exact ih hnd.2 hfind

/-- Looking up by id after `UPDATE … WHERE id = ?`: the rewritten row is
found. -/
theorem find_sub_map_update (l : List Submission) (sid : Int)
    (g : Submission → Submission) (hg : ∀ x, (g x).id = x.id) (a : Submission)
    (hfind : l.find? (subWithId sid) = some a) :
    (l.map (fun x => if x.id = sid then g x else x)).find? (subWithId sid)
      = some (g a) := by
  induction l with
  | nil => simp at hfind
  | cons b t ih =>
    by_cases hb : b.id = sid
    · rw [List.find?_cons_of_pos _ (by simp [hb])] at hfind
      cases hfind
      rw [List.map_cons, if_pos hb,
        List.find?_cons_of_pos _ (by simp [hg, hb])]
    · rw [List.find?_cons_of_neg _ (by simp [hb])] at hfind
      rw [List.map_cons, if_neg hb,
        List.find?_cons_of_neg _ (by simp [hb])]
      exact ih hfind

/-- Same as `find_sub_map_update` for ward rows. -/
theorem find_ward_map_update (l : List Ward) (wid : Int)
    (g : Ward → Ward) (hg : ∀ x, (g x).id = x.id) (a : Ward)
    (hfind : l.find? (wardWithId wid) = some a) :
    (l.map (fun x => if x.id = wid then g x else x)).find? (wardWithId wid)
      = some (g a) := by
  induction l with
  | nil => simp at hfind
  | cons b t ih =>
    by_cases hb : b.id = wid
    · rw [List.find?_cons_of_pos _ (by simp [hb])] at hfind
      cases hfind
      rw [List.map_cons, if_pos hb,
        List.find?_cons_of_pos _ (by simp [hg, hb])]
    · rw [List.find?_cons_of_neg _ (by simp [hb])] at hfind
      rw [List.map_cons, if_neg hb,
        List.find?_cons_of_neg _ (by simp [hb])]
      exact ih hfind

/-- One achievement-table iteration touches only `achievements` and the event
stream. -/
theorem achievementStep_frame (wid pts : Int) (st : ServerState)
    (e : Int × String × String × String) :
    (achievementStep wid pts st e).db.wards = st.db.wards ∧
    (achievementStep wid pts st e).db.submissions = st.db.submissions ∧
    (achievementStep wid pts st e).db.users = st.db.users ∧
    (achievementStep wid pts st e).db.activity_logs = st.db.activity_logs ∧
    (achievementStep wid pts st e).db.next_submission_id
      = st.db.next_submission_id := by
  unfold achievementStep
  split <;> simp

theorem foldl_achievementStep_frame (wid pts : Int)
    (l : List (Int × String × String × String)) (st : ServerState) :
    (l.foldl (achievementStep wid pts) st).db.wards = st.db.wards ∧
    (l.foldl (achievementStep wid pts) st).db.submissions = st.db.submissions ∧
    (l.foldl (achievementStep wid pts) st).db.users = st.db.users ∧
    (l.foldl (achievementStep wid pts) st).db.activity_logs
      = st.db.activity_logs ∧
    (l.foldl (achievementStep wid pts) st).db.next_submission_id
      = st.db.next_submission_id := by
  induction l generalizing st with
  | nil => exact ⟨rfl, rfl, rfl, rfl, rfl⟩
  | cons e t ih =>
    rw [List.foldl_cons]
    have h1 := achievementStep_frame wid pts st e
    have h2 := ih (achievementStep wid pts st e)
    exact ⟨h2.1.trans h1.1, h2.2.1.trans h1.2.1, h2.2.2.1.trans h1.2.2.1,
      h2.2.2.2.1.trans h1.2.2.2.1, h2.2.2.2.2.trans h1.2.2.2.2⟩

/-- The achievement check touches only `achievements` and the event
stream: ward rows are unchanged. -/
theorem checkAndAward_wards (s : ServerState) (wid : Int) :
    (checkAndAwardAchievements s wid).db.wards = s.db.wards := by
  simp only [checkAndAwardAchievements]
  exact (foldl_achievementStep_frame wid _ achievementTable s).1

/-- The achievement check touches only `achievements` and the event
stream: submission rows are unchanged. -/
theorem checkAndAward_submissions (s : ServerState) (wid : Int) :
    (checkAndAwardAchievements s wid).db.submissions = s.db.submissions := by
  simp only [checkAndAwardAchievements]
  exact (foldl_achievementStep_frame wid _ achievementTable s).2.1

/-- The ward-consistency invariant only looks at ward and submission rows. -/
theorem wardInvariant_of_eq (db1 db2 : DB) (hw : db1.wards = db2.wards)
    (hs : db1.submissions = db2.submissions) (h : wardInvariant db2) :
    wardInvariant db1 := by
  unfold wardInvariant at *
  rw [hw, hs]
  exact h

/-- After the approve/reject row rewrite sets the row's status away from
`pending`, the pending-filtered lookup finds nothing. -/
theorem find_pending_after_update (l : List Submission) (sid : Int)
    (g : Submission → Submission)
    (hgs : ∀ x, (g x).status ≠ Status.pending) :
    (l.map (fun x => if x.id = sid then g x else x)).find? (pendingWithId sid)
      = none := by
  rw [List.find?_eq_none]
  intro y hy
  rcases List.mem_map.mp hy with ⟨x, _, rfl⟩
  by_cases hx : x.id = sid
  · simp [if_pos hx, hgs]
  · simp [if_neg hx, hx]

/-- Invariant preservation for the approve row/total rewrites: marking the
pending row approved while adding its points to the ward's verified cache and
subtracting them from its pending cache keeps every ward's caches equal to
the ledger sums. -/
theorem approve_lists_invariant (subs : List Submission) (wards : List Ward)
    (sub : Submission) (sid uid now : Int)
    (hnd : (subs.map (fun x => x.id)).Nodup) (hmem : sub ∈ subs)
    (hid : sub.id = sid) (hp : sub.status = .pending)
    (hinv : ∀ w ∈ wards, w.points = sumStatusPoints subs w.id .approved ∧
      w.pending_points = sumStatusPoints subs w.id .pending) :
    ∀ w' ∈ wards.map (fun w =>
      if w.id = sub.ward_id then
        { w with
          points := w.points + sub.points
          pending_points := w.pending_points - sub.points }
      else w),
      w'.points = sumStatusPoints (subs.map (fun x =>
        if x.id = sid then
          { x with
            status := .approved
            approved_by := some uid
            approved_at := some now }
        else x)) w'.id .approved ∧
      w'.pending_points = sumStatusPoints (subs.map (fun x =>
        if x.id = sid then
          { x with
            status := .approved
            approved_by := some uid
            approved_at := some now }
        else x)) w'.id .pending := by
  intro w' hw'
  rcases List.mem_map.mp hw' with ⟨w, hwm, rfl⟩
  have h := hinv w hwm
  by_cases hwid : w.id = sub.ward_id
  · rw [if_pos hwid]
    dsimp only
    constructor
    · rw [sumStatusPoints_map_update subs sid _ sub hnd hmem hid]
      have c1 : contrib w.id Status.approved sub = 0 := by
        simp [contrib, hp]
      have c2 : contrib w.id Status.approved
          { sub with
            status := .approved
            approved_by := some uid
            approved_at := some now } = sub.points := by
        simp [contrib, hwid.symm]
      rw [c1, c2, h.1]
      ring
    · rw [sumStatusPoints_map_update subs sid _ sub hnd hmem hid]
      have c1 : contrib w.id Status.pending sub = sub.points := by
        simp [contrib, hwid.symm, hp]
      have c2 : contrib w.id Status.pending
          { sub with
            status := .approved
            approved_by := some uid
            approved_at := some now } = 0 := by
        simp [contrib]
      rw [c1, c2, h.2]
      ring
  · rw [if_neg hwid]
    have hw2 : sub.ward_id ≠ w.id := fun hh => hwid hh.symm
    constructor
    · rw [sumStatusPoints_map_update subs sid _ sub hnd hmem hid]
      have c1 : contrib w.id Status.approved sub = 0 := by
        simp [contrib, hw2]
      have c2 : contrib w.id Status.approved
          { sub with
            status := .approved
            approved_by := some uid
            approved_at := some now } = 0 := by
        simp [contrib, hw2]
      rw [c1, c2, h.1]
      ring
    · rw [sumStatusPoints_map_update subs sid _ sub hnd hmem hid]
      have c1 : contrib w.id Status.pending sub = 0 := by
        simp [contrib, hw2]
      have c2 : contrib w.id Status.pending
          { sub with
            status := .approved
            approved_by := some uid
            approved_at := some now } = 0 := by
        simp [contrib, hw2]
      rw [c1, c2, h.2]
      ring

/-- Invariant preservation for the reject row/total rewrites. -/
theorem reject_lists_invariant (subs : List Submission) (wards : List Ward)
    (sub : Submission) (sid uid now : Int)
    (hnd : (subs.map (fun x => x.id)).Nodup) (hmem : sub ∈ subs)
    (hid : sub.id = sid) (hp : sub.status = .pending)
    (hinv : ∀ w ∈ wards, w.points = sumStatusPoints subs w.id .approved ∧
      w.pending_points = sumStatusPoints subs w.id .pending) :
    ∀ w' ∈ wards.map (fun w =>
      if w.id = sub.ward_id then
        { w with pending_points := w.pending_points - sub.points }
      else w),
      w'.points = sumStatusPoints (subs.map (fun x =>
        if x.id = sid then
          { x with
            status := .rejected
            approved_by := some uid
            approved_at := some now }
        else x)) w'.id .approved ∧
      w'.pending_points = sumStatusPoints (subs.map (fun x =>
        if x.id = sid then
          { x with
            status := .rejected
            approved_by := some uid
            approved_at := some now }
          else x)) w'.id .pending := by
  intro w' hw'
  rcases List.mem_map.mp hw' with ⟨w, hwm, rfl⟩
  have h := hinv w hwm
  by_cases hwid : w.id = sub.ward_id
  · rw [if_pos hwid]
    dsimp only
    constructor
    · rw [sumStatusPoints_map_update subs sid _ sub hnd hmem hid]
      have c1 : contrib w.id Status.approved sub = 0 := by
        simp [contrib, hp]
      have c2 : contrib w.id Status.approved
          { sub with
            status := .rejected
            approved_by := some uid
            approved_at := some now } = 0 := by
        simp [contrib]
      rw [c1, c2, h.1]
      ring
    · rw [sumStatusPoints_map_update subs sid _ sub hnd hmem hid]
      have c1 : contrib w.id Status.pending sub = sub.points := by
        simp [contrib, hwid.symm, hp]
      have c2 : contrib w.id Status.pending
          { sub with
            status := .rejected
            approved_by := some uid
            approved_at := some now } = 0 := by
        simp [contrib]
      rw [c1, c2, h.2]
      ring
  · rw [if_neg hwid]
    have hw2 : sub.ward_id ≠ w.id := fun hh => hwid hh.symm
    constructor
    · rw [sumStatusPoints_map_update subs sid _ sub hnd hmem hid]
      have c1 : contrib w.id Status.approved sub = 0 := by
        simp [contrib, hw2]
      have c2 : contrib w.id Status.approved
          { sub with
            status := .rejected
            approved_by := some uid
            approved_at := some now } = 0 := by
        simp [contrib, hw2]
      rw [c1, c2, h.1]
      ring
    · rw [sumStatusPoints_map_update subs sid _ sub hnd hmem hid]
      have c1 : contrib w.id Status.pending sub = 0 := by
        simp [contrib, hw2]
      have c2 : contrib w.id Status.pending
          { sub with
            status := .rejected
            approved_by := some uid
            approved_at := some now } = 0 := by
        simp [contrib, hw2]
      rw [c1, c2, h.2]
      ring

/-- Invariant preservation for the submit insert plus pending-total
recompute. -/
theorem submit_lists_invariant (subs : List Submission) (wards : List Ward)
    (newSub : Submission) (wid : Int)
    (hward : newSub.ward_id = wid) (hp : newSub.status = .pending)
    (hinv : ∀ w ∈ wards, w.points = sumStatusPoints subs w.id .approved ∧
      w.pending_points = sumStatusPoints subs w.id .pending) :
    ∀ w' ∈ wards.map (fun w =>
      if w.id = wid then
        { w with pending_points := sumStatusPoints (subs ++ [newSub]) wid .pending }
      else w),
      w'.points = sumStatusPoints (subs ++ [newSub]) w'.id .approved ∧
      w'.pending_points = sumStatusPoints (subs ++ [newSub]) w'.id .pending := by
  intro w' hw'
  rcases List.mem_map.mp hw' with ⟨w, hwm, rfl⟩
  have h := hinv w hwm
  by_cases hwid : w.id = wid
  · rw [if_pos hwid]
    dsimp only
    constructor
    · rw [sumStatusPoints_append, sumStatusPoints_cons, sumStatusPoints_nil]
      have c1 : contrib w.id Status.approved newSub = 0 := by
        simp [contrib, hp]
      rw [c1, h.1]
      ring
    · rw [hwid]
  · rw [if_neg hwid]
    have hw2 : newSub.ward_id ≠ w.id := fun hh => hwid ((hward ▸ hh).symm ▸ rfl)
    constructor
    · rw [sumStatusPoints_append, sumStatusPoints_cons, sumStatusPoints_nil]
      have c1 : contrib w.id Status.approved newSub = 0 := by
        simp [contrib, hw2]
      rw [c1, h.1]
      ring
    · rw [sumStatusPoints_append, sumStatusPoints_cons, sumStatusPoints_nil]
      have c1 : contrib w.id Status.pending newSub = 0 := by
        simp [contrib, hw2]
      rw [c1, h.2]
      ring

/-- The achievement check changes neither ward caches nor the ledger, so the
consistency invariant survives it (and a subsequent activity-log append). -/
theorem checkAndAward_wardInvariant (s : ServerState) (wid : Int)
    (logs : List ActivityLog) (h : wardInvariant s.db) :
    wardInvariant { (checkAndAwardAchievements s wid).db with activity_logs := logs } :=
  wardInvariant_of_eq _ s.db (checkAndAward_wards s wid)
    (checkAndAward_submissions s wid) h

/-! ## Claims -/

/-- Claim C1 (confirmed): for every ward and after every completed Submit,
Approve, or Reject operation, the ward's cached verified point total equals
the sum of point amounts of its approved submissions and its cached pending
point total equals the sum of point amounts of its pending submissions —
stated as preservation: if the consistency invariant holds before the
operation (and submission ids are unique), it holds after it, whatever the
outcome. -/
theorem totals_match_ledger (s : ServerState)
    (hinv : wardInvariant s.db) (hnd : subIdsNodup s.db)
    (wid pts : Int) (name note : String) (r : Request) (sid now : Int) :
    wardInvariant (handleSubmitPoints s wid name pts note).1.db ∧
    wardInvariant (handleApprovePoints s r sid now).1.db ∧
    wardInvariant (handleRejectPoints s r sid now).1.db := by
  refine ⟨?_, ?_, ?_⟩
  · unfold handleSubmitPoints
    split
    · exact hinv
    · split
      · exact hinv
      · intro w' hw'
        dsimp only at hw' ⊢
        exact submit_lists_invariant s.db.submissions s.db.wards _ wid rfl rfl
          hinv w' hw'
  · unfold handleApprovePoints
    by_cases hu : getUserIDFromSession r = 0
    · rw [if_pos hu]
      exact hinv
    · rw [if_neg hu]
      cases hfind : s.db.submissions.find? (pendingWithId sid) with
      | none => exact hinv
      | some sub =>
        dsimp only
        by_cases ha : canApproveForWard s.db (getUserIDFromSession r) sub.ward_id = true
        · rw [if_neg (not_not_intro ha)]
          have hsub := List.find?_some hfind
          simp only [pendingWithId_eq, decide_eq_true_eq] at hsub
          have hmem := List.mem_of_find?_eq_some hfind
          dsimp only
          apply checkAndAward_wardInvariant
          intro w' hw'
          dsimp only at hw' ⊢
          exact approve_lists_invariant s.db.submissions s.db.wards sub sid
            (getUserIDFromSession r) now hnd hmem hsub.1 hsub.2 hinv w' hw'
        · rw [if_pos ha]
          exact hinv
  · unfold handleRejectPoints
    by_cases hu : getUserIDFromSession r = 0
    · rw [if_pos hu]
      exact hinv
    · rw [if_neg hu]
      cases hfind : s.db.submissions.find? (pendingWithId sid) with
      | none => exact hinv
      | some sub =>
        dsimp only
        by_cases ha : canApproveForWard s.db (getUserIDFromSession r) sub.ward_id = true
        · rw [if_neg (not_not_intro ha)]
          have hsub := List.find?_some hfind
          simp only [pendingWithId_eq, decide_eq_true_eq] at hsub
          have hmem := List.mem_of_find?_eq_some hfind
          intro w' hw'
          dsimp only at hw' ⊢
          exact reject_lists_invariant s.db.submissions s.db.wards sub sid
            (getUserIDFromSession r) now hnd hmem hsub.1 hsub.2 hinv w' hw'
        · rw [if_pos ha]
          exact hinv

/-- Closed-input check of `totals_match_ledger` on the demo database. -/
theorem totals_match_ledger_witness :
    wardInvariant (handleSubmitPoints demoState 2 "Alice" 10 "note").1.db ∧
    wardInvariant (handleApprovePoints demoState adminReq 2 42).1.db ∧
    wardInvariant (handleRejectPoints demoState adminReq 2 42).1.db :=
  totals_match_ledger demoState (by decide) (by decide) 2 10 "Alice" "note"
    adminReq 2 42

/-- Claim C2 (confirmed): approving an existing pending submission as an
authorized approver returns success, marks the row approved with the
approver's id and the approval timestamp, adds the submission's points to
the ward's verified total and subtracts them from its pending total. -/
theorem approve_pending_effects (s : ServerState) (r : Request) (sid now : Int)
    (sub : Submission) (w : Ward)
    (hnd : subIdsNodup s.db)
    (huser : getUserIDFromSession r ≠ 0)
    (hfind : s.db.submissions.find? (pendingWithId sid) = some sub)
    (hauth : canApproveForWard s.db (getUserIDFromSession r) sub.ward_id = true)
    (hw : s.db.wards.find? (wardWithId sub.ward_id) = some w) :
    (handleApprovePoints s r sid now).2 = .ok ∧
    (handleApprovePoints s r sid now).1.db.submissions.find? (subWithId sid) =
      some { sub with
             status := .approved
             approved_by := some (getUserIDFromSession r)
             approved_at := some now } ∧
    (handleApprovePoints s r sid now).1.db.wards.find? (wardWithId sub.ward_id) =
      some { w with
             points := w.points + sub.points
             pending_points := w.pending_points - sub.points } := by
  unfold handleApprovePoints
  rw [if_neg huser, hfind]
  dsimp only
  rw [hauth]
  simp only [not_true, if_false]
  refine ⟨trivial, ?_, ?_⟩
  · rw [checkAndAward_submissions]
    exact find_sub_map_update _ sid
      (fun x => { x with
                  status := .approved
                  approved_by := some (getUserIDFromSession r)
                  approved_at := some now })
      (fun x => rfl) sub (find_pending_weaken _ sid sub hnd hfind)
  · rw [checkAndAward_wards]
    exact find_ward_map_update _ sub.ward_id
      (fun x => { x with
                  points := x.points + sub.points
                  pending_points := x.pending_points - sub.points })
      (fun x => rfl) w hw

/-- Closed-input check of `approve_pending_effects`: the admin approves the
50-point pending submission of ward 1 on the demo database. -/
theorem approve_pending_effects_witness :
    (handleApprovePoints demoState adminReq 2 42).2 = .ok ∧
    (handleApprovePoints demoState adminReq 2 42).1.db.submissions.find? (subWithId 2) =
      some ⟨2, 1, "Demo User", 50, "", .approved, some 1, some 42⟩ ∧
    (handleApprovePoints demoState adminReq 2 42).1.db.wards.find? (wardWithId 1) =
      some ⟨1, "Fountain Green 1st Ward", 150, 0⟩ :=
  approve_pending_effects demoState adminReq 2 42
    ⟨2, 1, "Demo User", 50, "", .pending, none, none⟩
    ⟨1, "Fountain Green 1st Ward", 100, 50⟩
    (by decide) (by decide) (by decide) (by decide) (by decide)


/-- A success result from `handleApprovePoints` implies the caller was
authenticated, a pending row with the id existed, and the authorization check
passed. -/
theorem approve_ok_inversion (s : ServerState) (r : Request) (sid now : Int)
    (hok : (handleApprovePoints s r sid now).2 = .ok) :
    getUserIDFromSession r ≠ 0 ∧
    ∃ sub, s.db.submissions.find? (pendingWithId sid) = some sub ∧
      canApproveForWard s.db (getUserIDFromSession r) sub.ward_id = true := by
  unfold handleApprovePoints at hok
  by_cases hu : getUserIDFromSession r = 0
  · rw [if_pos hu] at hok
    cases hok
  · rw [if_neg hu] at hok
    refine ⟨hu, ?_⟩
    cases hfind : s.db.submissions.find? (pendingWithId sid) with
    | none =>
      rw [hfind] at hok
      cases hok
    | some sub =>
      rw [hfind] at hok
      dsimp only at hok
      by_cases ha : canApproveForWard s.db (getUserIDFromSession r) sub.ward_id = true
      · exact ⟨sub, rfl, ha⟩
      · rw [if_pos ha] at hok
        cases hok

/-- After a successful approve there no longer is a pending submission with
that id. -/
theorem approve_then_pending_gone (s : ServerState) (r : Request) (sid now : Int)
    (hok : (handleApprovePoints s r sid now).2 = .ok) :
    (handleApprovePoints s r sid now).1.db.submissions.find? (pendingWithId sid)
      = none := by
  obtain ⟨hu, sub, hfind, ha⟩ := approve_ok_inversion s r sid now hok
  unfold handleApprovePoints
  rw [if_neg hu, hfind]
  dsimp only
  rw [ha]
  simp only [not_true, if_false]
  rw [checkAndAward_submissions]
  exact find_pending_after_update _ sid _ (fun x => by simp)

/-- Claim C3 (confirmed): for an authenticated caller, Approve returns
NotFound when no pending submission carries the id (in particular when it was
already approved or rejected), Forbidden when the caller is not authorized
for the submission's ward — both without touching the state — and a second
Approve of the same id after a successful one returns NotFound and leaves the
state (hence the ward's verified and pending totals) unchanged. -/
theorem approve_guards_and_idempotence (s : ServerState) (r : Request)
    (sid now : Int) (huser : getUserIDFromSession r ≠ 0) :
    (s.db.submissions.find? (pendingWithId sid) = none →
      handleApprovePoints s r sid now = (s, .notFound)) ∧
    (∀ sub, s.db.submissions.find? (pendingWithId sid) = some sub →
      canApproveForWard s.db (getUserIDFromSession r) sub.ward_id = false →
      handleApprovePoints s r sid now = (s, .forbidden)) ∧
    (∀ s2 r2 now2, getUserIDFromSession r2 ≠ 0 →
      handleApprovePoints s r sid now = (s2, .ok) →
      handleApprovePoints s2 r2 sid now2 = (s2, .notFound)) := by
  refine ⟨?_, ?_, ?_⟩
  · intro hfind
    unfold handleApprovePoints
    rw [if_neg huser, hfind]
  · intro sub hfind hauth
    unfold handleApprovePoints
    rw [if_neg huser, hfind]
    dsimp only
    rw [hauth]
    simp
  · intro s2 r2 now2 hr2 hok
    have h1 : (handleApprovePoints s r sid now).1 = s2 := by rw [hok]
    have h2 : (handleApprovePoints s r sid now).2 = .ok := by rw [hok]
    have hgone := approve_then_pending_gone s r sid now h2
    rw [h1] at hgone
    unfold handleApprovePoints
    rw [if_neg hr2, hgone]

/-- Closed-input check of `approve_guards_and_idempotence`: an already
approved id yields NotFound, a foreign ward approver yields Forbidden, and a
repeated approve of id 2 yields NotFound without changing the state. -/
theorem approve_guards_witness :
    handleApprovePoints demoState adminReq 1 42 = (demoState, .notFound) ∧
    handleApprovePoints demoState approverReq 3 42 = (demoState, .forbidden) ∧
    handleApprovePoints (handleApprovePoints demoState adminReq 2 42).1 adminReq 2 43
      = ((handleApprovePoints demoState adminReq 2 42).1, .notFound) := by
  refine ⟨?_, ?_, ?_⟩
  · exact (approve_guards_and_idempotence demoState adminReq 1 42 (by decide)).1
      (by decide)
  · exact (approve_guards_and_idempotence demoState approverReq 3 42 (by decide)).2.1
      ⟨3, 2, "Demo User", 55, "", .pending, none, none⟩ (by decide) (by decide)
  · exact (approve_guards_and_idempotence demoState adminReq 2 42 (by decide)).2.2
      (handleApprovePoints demoState adminReq 2 42).1 adminReq 43 (by decide) rfl

/-- Claim C6 (confirmed): rejecting an existing pending submission as an
authorized approver marks the row rejected, subtracts the points from the
ward's pending total while the verified total stays as it was, performs no
achievement evaluation (achievement rows unchanged, no achievement event)
and broadcasts exactly one leaderboard update. -/
theorem reject_pending_effects (s : ServerState) (r : Request) (sid now : Int)
    (sub : Submission) (w : Ward)
    (huser : getUserIDFromSession r ≠ 0)
    (hfind : s.db.submissions.find? (pendingWithId sid) = some sub)
    (hauth : canApproveForWard s.db (getUserIDFromSession r) sub.ward_id = true)
    (hw : s.db.wards.find? (wardWithId sub.ward_id) = some w)
    (hnd : subIdsNodup s.db) :
    (handleRejectPoints s r sid now).2 = .ok ∧
    (handleRejectPoints s r sid now).1.db.submissions.find? (subWithId sid) =
      some { sub with
             status := .rejected
             approved_by := some (getUserIDFromSession r)
             approved_at := some now } ∧
    (handleRejectPoints s r sid now).1.db.wards.find? (wardWithId sub.ward_id) =
      some { w with pending_points := w.pending_points - sub.points } ∧
    (handleRejectPoints s r sid now).1.db.achievements = s.db.achievements ∧
    (handleRejectPoints s r sid now).1.events = s.events ++ [Event.leaderboardUpdate] := by
  unfold handleRejectPoints
  rw [if_neg huser, hfind]
  dsimp only
  rw [hauth]
  simp only [not_true, if_false]
  refine ⟨trivial, ?_, ?_, trivial, trivial⟩
  · exact find_sub_map_update _ sid
      (fun x => { x with
                  status := .rejected
                  approved_by := some (getUserIDFromSession r)
                  approved_at := some now })
      (fun x => rfl) sub (find_pending_weaken _ sid sub hnd hfind)
  · exact find_ward_map_update _ sub.ward_id
      (fun x => { x with pending_points := x.pending_points - sub.points })
      (fun x => rfl) w hw

/-- Closed-input check of `reject_pending_effects`: the ward-1 approver
rejects the 50-point pending submission. -/
theorem reject_pending_effects_witness :
    (handleRejectPoints demoState approverReq 2 42).2 = .ok ∧
    (handleRejectPoints demoState approverReq 2 42).1.db.submissions.find? (subWithId 2) =
      some ⟨2, 1, "Demo User", 50, "", .rejected, some 2, some 42⟩ ∧
    (handleRejectPoints demoState approverReq 2 42).1.db.wards.find? (wardWithId 1) =
      some ⟨1, "Fountain Green 1st Ward", 100, 0⟩ ∧
    (handleRejectPoints demoState approverReq 2 42).1.db.achievements =
      demoState.db.achievements ∧
    (handleRejectPoints demoState approverReq 2 42).1.events =
      demoState.events ++ [Event.leaderboardUpdate] :=
  reject_pending_effects demoState approverReq 2 42
    ⟨2, 1, "Demo User", 50, "", .pending, none, none⟩
    ⟨1, "Fountain Green 1st Ward", 100, 50⟩
    (by decide) (by decide) (by decide) (by decide) (by decide)

/-- Claim C7 (confirmed): a Submit whose point amount is zero or negative, or
whose submitter name is empty, fails with the validation error (400) and the
state is returned untouched — no submission row, no activity-log entry, no
broadcast. -/
theorem submit_invalid_no_mutation (s : ServerState) (wid pts : Int)
    (name note : String) (hbad : pts ≤ 0 ∨ name = "") :
    handleSubmitPoints s wid name pts note = (s, .badRequest) := by
  unfold handleSubmitPoints
  rcases hbad with h | h
  · rw [if_pos (Or.inr (Or.inr h))]
  · rw [if_pos (Or.inr (Or.inl h))]

/-- Closed-input check of `submit_invalid_no_mutation`: zero points and an
empty submitter name. -/
theorem submit_invalid_no_mutation_witness :
    handleSubmitPoints demoState 1 "Alice" 0 "x" = (demoState, .badRequest) ∧
    handleSubmitPoints demoState 1 "" 5 "x" = (demoState, .badRequest) :=
  ⟨submit_invalid_no_mutation demoState 1 0 "Alice" "x" (Or.inl (by decide)),
   submit_invalid_no_mutation demoState 1 5 "" "x" (Or.inr rfl)⟩

/-- Claim C8 counterexample: submitting for the nonexistent ward 2 does not
fail through the validation path (400); it fails with the store error (500)
raised by the foreign-key constraint during the insert — though indeed no row
is inserted and no side effect happens. -/
theorem submit_unknown_ward_counterexample :
    (handleSubmitPoints oneWardState 2 "Bob" 5 "").2 = .internalError ∧
    (handleSubmitPoints oneWardState 2 "Bob" 5 "").2 ≠ .badRequest ∧
    (handleSubmitPoints oneWardState 2 "Bob" 5 "").1 = oneWardState :=
  ⟨rfl, by decide, rfl⟩

/-- Claim C8 (corrected): a Submit whose (nonzero) wardID references no
existing ward and which passes the field validation fails synchronously
before any mutation with no submission row inserted — but as a store-level
foreign-key failure reported as an internal error (500), not as a validation
failure. -/
theorem submit_unknown_ward_store_error (s : ServerState) (wid pts : Int)
    (name note : String)
    (hvalid : ¬(wid = 0 ∨ name = "" ∨ pts ≤ 0))
    (hno : wardExists s.db wid = false) :
    handleSubmitPoints s wid name pts note = (s, .internalError) := by
  unfold handleSubmitPoints
  rw [if_neg hvalid, if_pos (by simp [hno])]

/-- Closed-input check of `submit_unknown_ward_store_error`. -/
theorem submit_unknown_ward_store_error_witness :
    handleSubmitPoints oneWardState 2 "Bob" 5 "" = (oneWardState, .internalError) :=
  submit_unknown_ward_store_error oneWardState 2 5 "Bob" "" (by decide) (by decide)

/-- Claim C9 (confirmed): every leaderboard entry's progress value equals the
ward's verified points divided by the 1300-point competition goal, times 100,
rounded to one decimal place — and verified 650 against goal 1300 yields
progress 50.0. -/
theorem leaderboard_progress (db : DB) (sortKey : String) :
    (∀ e ∈ getLeaderboardEntries db sortKey, e.progress = progressSpec e.points 1300) ∧
    progressSpec 650 1300 = 50 := by
  constructor
  · intro e he
    rcases List.mem_map.mp he with ⟨p, hp, rfl⟩
    rfl
  · with_unfolding_all rfl

/-- Closed-input check of `leaderboard_progress` on a ward at 650 points. -/
theorem leaderboard_progress_witness :
    (∀ e ∈ getLeaderboardEntries ward650DB "verified-desc",
      e.progress = progressSpec e.points 1300) ∧
    progressSpec 650 1300 = 50 :=
  leaderboard_progress ward650DB "verified-desc"

/-- Claim C10 (confirmed): identity resolution is a pure function of the
`session` cookie's integer value alone — two requests with the same session
cookie resolve to the same identity; a missing cookie or a value `Atoi`
rejects resolves to the unauthenticated identity 0; and a cookie holding
integer n resolves to user n with no verification or lookup. -/
theorem session_identity_from_cookie (r1 r2 r3 : Request) (v : String) (n : Int) :
    (getCookie r1 "session" = getCookie r2 "session" →
      getUserIDFromSession r1 = getUserIDFromSession r2) ∧
    (getCookie r3 "session" = none → getUserIDFromSession r3 = 0) ∧
    (getCookie r3 "session" = some v → goAtoi v = none → getUserIDFromSession r3 = 0) ∧
    (getCookie r3 "session" = some v → goAtoi v = some n → getUserIDFromSession r3 = n) := by
  refine ⟨?_, ?_, ?_, ?_⟩
  · intro h
    unfold getUserIDFromSession
    rw [h]
  · intro h
    unfold getUserIDFromSession
    rw [h]
  · intro h h2
    unfold getUserIDFromSession
    rw [h]
    dsimp only
    rw [h2]
  · intro h h2
    unfold getUserIDFromSession
    rw [h]
    dsimp only
    rw [h2]

/-- Closed-input check of `session_identity_from_cookie`. -/
theorem session_identity_witness :
    getUserIDFromSession ⟨[("session", "7"), ("theme", "dark")]⟩ =
      getUserIDFromSession ⟨[("session", "7")]⟩ ∧
    getUserIDFromSession ⟨[("lang", "en")]⟩ = 0 ∧
    getUserIDFromSession ⟨[("session", "abc")]⟩ = 0 ∧
    getUserIDFromSession ⟨[("session", "7")]⟩ = 7 :=
  ⟨(session_identity_from_cookie ⟨[("session", "7"), ("theme", "dark")]⟩
      ⟨[("session", "7")]⟩ ⟨[]⟩ "" 0).1 rfl,
   (session_identity_from_cookie ⟨[]⟩ ⟨[]⟩ ⟨[("lang", "en")]⟩ "" 0).2.1 rfl,
   (session_identity_from_cookie ⟨[]⟩ ⟨[]⟩ ⟨[("session", "abc")]⟩ "abc" 0).2.2.1
      rfl rfl,
   (session_identity_from_cookie ⟨[]⟩ ⟨[]⟩ ⟨[("session", "7")]⟩ "7" 7).2.2.2
      rfl rfl⟩

/-- Claim C5 (confirmed): when a message is broadcast, every registered
connection whose outbound queue is full is removed from the live set, and
every other registered connection stays registered with the message appended
to its queue. -/
theorem broadcast_drops_only_full (h : Hub) (msg : String)
    (hnd : (h.clients.map (fun c => c.id)).Nodup)
    (c : Client) (hc : c ∈ h.clients) :
    (c.capacity ≤ c.send.length →
      ∀ c2 ∈ (hubBroadcast h msg).clients, c2.id ≠ c.id) ∧
    (c.send.length < c.capacity →
      { c with send := c.send ++ [msg] } ∈ (hubBroadcast h msg).clients) := by
  constructor
  · intro hfull c2 hc2 heq
    rcases List.mem_map.mp hc2 with ⟨c0, hc0f, rfl⟩
    have hc0 : c0 ∈ h.clients := List.mem_of_mem_filter hc0f
    have hroom : c0.send.length < c0.capacity := by
      have := List.of_mem_filter hc0f
      simpa using this
    have hceq : c0 = c :=
      List.inj_on_of_nodup_map hnd hc0 hc (by simpa using heq)
    rw [hceq] at hroom
    omega
  · intro hroom
    exact List.mem_map_of_mem _ (List.mem_filter_of_mem hc (by simpa using hroom))

/-- Closed-input check of `broadcast_drops_only_full` on a two-client hub:
client 2 has a full queue and is dropped, client 1 receives the message. -/
theorem broadcast_drops_only_full_witness :
    (2 ≤ (["a", "b"] : List String).length →
      ∀ c2 ∈ (hubBroadcast demoHub "m").clients, c2.id ≠ (2 : Int)) ∧
    ((["a"] : List String).length < 2 →
      (⟨1, ["a", "m"], 2⟩ : Client) ∈ (hubBroadcast demoHub "m").clients) :=
  ⟨(broadcast_drops_only_full demoHub "m" (by decide) ⟨2, ["a", "b"], 2⟩
      (by decide)).1,
   (broadcast_drops_only_full demoHub "m" (by decide) ⟨1, ["a"], 2⟩
      (by decide)).2⟩

/-- Claim C4 (code bug): evaluating achievements twice for ward 1 (holding
100 points) creates no duplicate row — the `UNIQUE(ward_id, type)` ignore
works — but each call emits another `achievement` broadcast even though the
achievement already exists: `INSERT OR IGNORE` returns no error when it
ignores, so the `if err == nil` guard before `broadcastAchievement` always
passes, contradicting the comment "If this was a new achievement, broadcast
it". -/
theorem evaluate_broadcast_not_idempotent :
    (checkAndAwardAchievements (checkAndAwardAchievements achState 1) 1).db.achievements
      = [⟨1, "first_100", "First 100 Points!", "💯"⟩] ∧
    (checkAndAwardAchievements (checkAndAwardAchievements achState 1) 1).events
      = [Event.achievement "Fountain Green 1st Ward" "First 100 Points!",
         Event.achievement "Fountain Green 1st Ward" "First 100 Points!"] :=
  ⟨rfl, rfl⟩


end TemplePoints
